import Mathlib

/-!
Shallow embedding of the flashcards program (`src/main.rs`) and proofs of the
spec's claims about it.

The program keeps a deck of flashcards in a TOML file, supports `add`,
`remove`, `list` and a sequential `flip` review mode driven by single key
presses (`q`, `f`, `n`, `b`) in a terminal UI.  Machine integers (`usize`)
are modelled as `Nat`; the one place where Rust `usize` arithmetic can wrap
(`index - 1` in the `Remove` arm, compiled with release-mode wrapping
semantics) is modelled explicitly with arithmetic modulo `2 ^ 64`.
-/

namespace Flashcards

/-- Rust `struct Flashcard { front, back, correct, incorrect }`.
`u32` counters are modelled as `Nat` (the program only ever creates them at 0
and this variant never increments them). -/
structure Flashcard where
  front : String
  back : String
  correct : Nat
  incorrect : Nat
deriving DecidableEq, Repr

/-- Rust `struct DeckState { cards: Vec<Flashcard> }`. -/
structure DeckState where
  cards : List Flashcard
deriving DecidableEq, Repr

/-- `DeckState::new` — the empty deck. -/
def DeckState.new : DeckState := ⟨[]⟩

/-- `DeckState::add_card` — `self.cards.push(flashcard)`. -/
def DeckState.add_card (s : DeckState) (c : Flashcard) : DeckState :=
  ⟨s.cards ++ [c]⟩

/-- `DeckState::remove_card` — if `index < self.cards.len()` it removes and
returns the card at `index` (shifting the tail left, like `Vec::remove`),
otherwise it returns an `io::Error` displaying "Index out of bounds" and
leaves the deck untouched. -/
def DeckState.remove_card (s : DeckState) (index : Nat) :
    Except String (DeckState × Flashcard) :=
  if h : index < s.cards.length then
    Except.ok (⟨s.cards.eraseIdx index⟩, s.cards.get ⟨index, h⟩)
  else
    Except.error "Index out of bounds"

/-- `Flashcard::from` — a new card with the given faces and zero counters. -/
def Flashcard.mkNew (front back : String) : Flashcard :=
  { front := front, back := back, correct := 0, incorrect := 0 }

/-- The modulus of Rust's 64-bit `usize`. -/
def USIZE : Nat := 2 ^ 64

/-- Release-mode Rust `i - 1` on `usize`: wrapping subtraction of one,
modelled as addition of `2 ^ 64 - 1` modulo `2 ^ 64`. -/
def usizeSub1 (i : Nat) : Nat := (i + (USIZE - 1)) % USIZE

theorem usizeSub1_of_pos (i : Nat) (h1 : 1 ≤ i) (h2 : i ≤ USIZE) :
    usizeSub1 i = i - 1 := by
  have hpos : 0 < USIZE := by simp [USIZE]
  unfold usizeSub1
  have he : i + (USIZE - 1) = (i - 1) + USIZE := by omega
  rw [he, Nat.add_mod_right]
  exact Nat.mod_eq_of_lt (by omega)

theorem usizeSub1_zero : usizeSub1 0 = USIZE - 1 := by
  have hpos : 0 < USIZE := by simp [USIZE]
  unfold usizeSub1
  rw [Nat.zero_add]
  exact Nat.mod_eq_of_lt (by omega)

/-- Rust `enum Side { Front, Back }`. -/
inductive Side where
  | Front
  | Back
deriving DecidableEq, Repr

/-- `Side::toggle`. -/
def Side.toggle : Side → Side
  | Side.Front => Side.Back
  | Side.Back => Side.Front

/-- Rust `enum Order { Sequential }` (the only review order this program
offers). -/
inductive Order where
  | Sequential
deriving DecidableEq, Repr

/-- A key press as seen by `FlipApp::run`: a character key, or any other key
(arrows, function keys, ...), all of which fall into the `_ => {}` arm. -/
inductive KeyCode where
  | char (c : Char)
  | other
deriving DecidableEq, Repr

/-- Rust `struct FlipApp`. -/
structure FlipApp where
  should_exit : Bool
  deck : List Flashcard
  order : Order
  show_side : Side
  index : Nat
deriving DecidableEq, Repr

/-- `FlipApp::new` — clones the deck's cards, starts at index 0 showing the
front, not exiting. -/
def FlipApp.new (deck_state : DeckState) (order : Order) : FlipApp :=
  { should_exit := false
    deck := deck_state.cards
    order := order
    show_side := Side.Front
    index := 0 }

/-- `FlipApp::flip_card` — toggles the visible side, touching nothing else. -/
def FlipApp.flip_card (a : FlipApp) : FlipApp :=
  { a with show_side := a.show_side.toggle }

/-- One iteration of the `match key.code` in `FlipApp::run`: the next state
together with the lines the loop body prints to the terminal (this loop body
prints nothing in any arm, so the list is `[]` in every branch).  The bound
check for `n` uses `self.deck.len() - 1` on `usize`, modelled with the same
release-mode wrapping decrement as the `Remove` command. -/
def FlipApp.step (a : FlipApp) (k : KeyCode) : FlipApp × List String :=
  match k with
  | KeyCode.char c =>
    if c = 'q' then ({ a with should_exit := true }, [])
    else if c = 'f' then (a.flip_card, [])
    else if c = 'n' then
      if a.index < usizeSub1 a.deck.length then
        (FlipApp.flip_card { a with index := a.index + 1 }, [])
      else (a, [])
    else if c = 'b' then
      if a.index > 0 then
        (FlipApp.flip_card { a with index := a.index - 1 }, [])
      else (a, [])
    else (a, [])
  | KeyCode.other => (a, [])

/-- The `while !self.should_exit` loop of `FlipApp::run`, driven by a finite
list of key presses: returns the final state and the number of
`terminal.draw` (render) calls.  Each iteration renders once and then blocks
for one key; when the input list is exhausted with the loop still live, the
loop has rendered once more and is blocked waiting for input. -/
def FlipApp.runLoop (a : FlipApp) : List KeyCode → FlipApp × Nat
  | [] => if a.should_exit then (a, 0) else (a, 1)
  | k :: rest =>
    if a.should_exit then (a, 0)
    else
      let r := FlipApp.runLoop ((a.step k).1) rest
      (r.1, r.2 + 1)

/-- Rust `enum Action` — the CLI subcommands. -/
inductive Action where
  | add (front back : String)
  | remove (index : Nat)
  | list
  | flip (order : Order)
deriving DecidableEq, Repr

/-- Everything observable about one program invocation after the deck was
loaded: the deck passed to `save_state` at the end of `main`, the lines
printed, how many times the terminal was rendered, and whether the flip
session was entered at all. -/
structure CmdOutcome where
  saved : DeckState
  messages : List String
  renders : Nat
  sessionEntered : Bool
deriving DecidableEq, Repr

/-- The `match args.action` in `main`, from the loaded deck to the outcome.
* `Add` pushes a fresh card and prints a confirmation.
* `Remove { index }` calls `remove_card(index - 1)` (wrapping `usize`
  decrement) and prints either the removed card or the error.
* `List` prints the file name and the cards, 1-based.
* `Flip` refuses on an empty deck printing "Deck is empty"; otherwise it
  runs `FlipApp` on a clone of the cards and never writes anything back, so
  the deck saved afterwards is the loaded one in both cases. -/
def mainStep (file : String) (state : DeckState) (action : Action)
    (inputs : List KeyCode) : CmdOutcome :=
  match action with
  | Action.add front back =>
    { saved := state.add_card (Flashcard.mkNew front back)
      messages := ["Adding flashcard: " ++ front ++ ", " ++ back]
      renders := 0
      sessionEntered := false }
  | Action.remove index =>
    match state.remove_card (usizeSub1 index) with
    | Except.ok (s2, card) =>
      { saved := s2
        messages := ["Removed card nbr " ++ toString index ++ ": " ++
          card.front ++ ", " ++ card.back]
        renders := 0
        sessionEntered := false }
    | Except.error e =>
      { saved := state
        messages := [e]
        renders := 0
        sessionEntered := false }
  | Action.list =>
    { saved := state
      messages := ("Cards in " ++ file) ::
        state.cards.enum.map
          (fun p => toString (p.1 + 1) ++ ": " ++ p.2.front ++ ", " ++ p.2.back)
      renders := 0
      sessionEntered := false }
  | Action.flip order =>
    if state.cards.length ≤ 0 then
      { saved := state
        messages := ["Deck is empty"]
        renders := 0
        sessionEntered := false }
    else
      { saved := state
        messages := []
        renders := ((FlipApp.new state order).runLoop inputs).2
        sessionEntered := true }

/-- `load_state` — the file-system read (`fs::read_to_string`) is modelled as
an `Option String` (`none` = missing/unreadable file) and the TOML decoder
(`toml::from_str::<DeckState>`) as an abstract partial parser.  A missing
file or a parse failure silently yields the fresh empty deck. -/
def load_state (readResult : Option String)
    (parse : String → Option DeckState) : DeckState :=
  match readResult with
  | some text =>
    match parse text with
    | some state => state
    | none => DeckState.new
  | none => DeckState.new

/-- Modelled from the spec: the adaptive learn-mode weighted selector is not
part of `src/main.rs` (this variant only ships the sequential flip mode), so
its weight function is taken from the spec's words: weight `3.0` for a card
with zero total attempts, otherwise `(incorrect + 1) / (correct + incorrect)`,
over exact rationals. -/
def weight (c : Flashcard) : ℚ :=
  if c.correct + c.incorrect = 0 then 3
  else ((c.incorrect : ℚ) + 1) / ((c.correct : ℚ) + (c.incorrect : ℚ))

/-! ## Helper lemmas -/

theorem FlipApp.step_n (a : FlipApp) :
    a.step (KeyCode.char 'n') =
      if a.index < usizeSub1 a.deck.length then
        (FlipApp.flip_card { a with index := a.index + 1 }, [])
      else (a, []) := by
  simp [FlipApp.step]

theorem FlipApp.step_b (a : FlipApp) :
    a.step (KeyCode.char 'b') =
      if a.index > 0 then
        (FlipApp.flip_card { a with index := a.index - 1 }, [])
      else (a, []) := by
  simp [FlipApp.step]

/-! ## Claim theorems -/

/-- C2: the adaptive selector's weight is exactly 3 for a card with zero
total attempts, and `(incorrect + 1) / (correct + incorrect)` otherwise, a
value that is always strictly positive. -/
theorem weight_formula (c : Flashcard) :
    (c.correct + c.incorrect = 0 → weight c = 3) ∧
    (c.correct + c.incorrect ≠ 0 →
      weight c = ((c.incorrect : ℚ) + 1) / ((c.correct : ℚ) + (c.incorrect : ℚ))) ∧
    0 < weight c := by
  refine ⟨fun h => by simp [weight, h], fun h => by simp [weight, h], ?_⟩
  unfold weight
  split
  · norm_num
  · rename_i h
    apply div_pos
    · positivity
    · have hpos : 0 < c.correct + c.incorrect := Nat.pos_of_ne_zero h
      have : (0 : ℚ) < ((c.correct + c.incorrect : Nat) : ℚ) := by
        exact_mod_cast hpos
      push_cast at this
      exact this

/-- Witness for C2 at concrete cards: an unseen card has weight 3, a card
with one correct and one incorrect answer has weight (1+1)/(1+1) = 1. -/
theorem weight_formula_witness :
    weight ⟨"q", "a", 0, 0⟩ = 3 ∧ weight ⟨"q", "a", 1, 1⟩ = 1 := by
  constructor
  · exact (weight_formula ⟨"q", "a", 0, 0⟩).1 (by decide)
  · have h := (weight_formula ⟨"q", "a", 1, 1⟩).2.1 (by decide)
    rw [h]
    norm_num

/-- C3: starting flip mode on an empty deck refuses to start: the session is
never entered, "Deck is empty" is reported, the saved deck is exactly the
loaded one, and no render call happens. -/
theorem flip_empty_deck_refused (file : String) (state : DeckState)
    (order : Order) (inputs : List KeyCode) (h : state.cards = []) :
    mainStep file state (Action.flip order) inputs =
      { saved := state
        messages := ["Deck is empty"]
        renders := 0
        sessionEntered := false } := by
  simp [mainStep, h]

/-- Witness for C3: the empty deck at a concrete invocation. -/
theorem flip_empty_deck_refused_witness :
    mainStep "cards.toml" ⟨[]⟩ (Action.flip Order.Sequential) [] =
      { saved := ⟨[]⟩
        messages := ["Deck is empty"]
        renders := 0
        sessionEntered := false } :=
  flip_empty_deck_refused "cards.toml" ⟨[]⟩ Order.Sequential [] rfl

/-- C6: flipping is involutive on the visible side, a single flip replaces
the visible side by its toggle and changes nothing else, and the toggle
swaps Front and Back. -/
theorem flip_involutive (a : FlipApp) :
    (a.flip_card.flip_card).show_side = a.show_side ∧
    a.flip_card = { a with show_side := a.show_side.toggle } ∧
    Side.toggle Side.Front = Side.Back ∧
    Side.toggle Side.Back = Side.Front := by
  refine ⟨?_, rfl, rfl, rfl⟩
  cases h : a.show_side <;> simp [FlipApp.flip_card, Side.toggle, h]

/-- C7: `load_state` yields the empty deck when the file is missing or its
contents do not parse, and yields exactly the decoded deck when parsing
succeeds; the fresh deck really is empty. -/
theorem load_state_fallback (readResult : Option String)
    (parse : String → Option DeckState) :
    (readResult = none → load_state readResult parse = DeckState.new) ∧
    (∀ text, readResult = some text → parse text = none →
      load_state readResult parse = DeckState.new) ∧
    (∀ text state, readResult = some text → parse text = some state →
      load_state readResult parse = state) ∧
    DeckState.new.cards = [] := by
  refine ⟨?_, ?_, ?_, rfl⟩ <;> intros <;> simp_all [load_state]

/-- Witness for C7: a missing file, an unparsable file and a parsable file at
concrete inputs. -/
theorem load_state_fallback_witness :
    load_state none (fun _ => none) = DeckState.new ∧
    load_state (some "garbage") (fun _ => none) = DeckState.new ∧
    load_state (some "[[cards]]")
      (fun t => if t = "[[cards]]" then some ⟨[⟨"f", "b", 1, 2⟩]⟩ else none) =
      ⟨[⟨"f", "b", 1, 2⟩]⟩ := by
  refine ⟨?_, ?_, ?_⟩
  · exact (load_state_fallback none (fun _ => none)).1 rfl
  · exact (load_state_fallback (some "garbage") (fun _ => none)).2.1 "garbage" rfl rfl
  · exact (load_state_fallback (some "[[cards]]") _).2.2.1 "[[cards]]"
      ⟨[⟨"f", "b", 1, 2⟩]⟩ rfl (by simp)

/-- C4: in sequential flip mode over a non-empty deck, `n` at the last index
and `b` at index 0 leave the index unchanged, and otherwise `n`/`b` move the
index by exactly +1/−1 — no wraparound. -/
theorem navigation_clamped (a : FlipApp) (hne : a.deck ≠ [])
    (hlen : a.deck.length < USIZE) :
    (a.index = a.deck.length - 1 →
      ((a.step (KeyCode.char 'n')).1).index = a.index) ∧
    (a.index = 0 → ((a.step (KeyCode.char 'b')).1).index = a.index) ∧
    (a.index < a.deck.length - 1 →
      ((a.step (KeyCode.char 'n')).1).index = a.index + 1) ∧
    (0 < a.index → ((a.step (KeyCode.char 'b')).1).index = a.index - 1) := by
  have h1 : 1 ≤ a.deck.length := List.length_pos.mpr hne
  have hs : usizeSub1 a.deck.length = a.deck.length - 1 :=
    usizeSub1_of_pos _ h1 (le_of_lt hlen)
  refine ⟨?_, ?_, ?_, ?_⟩ <;> intro h <;>
    simp [FlipApp.step, FlipApp.flip_card, hs, h]

/-- Witness for C4: on a two-card deck at index 1 (the last), `n` stays at 1;
at index 0, `b` stays at 0. -/
theorem navigation_clamped_witness :
    ((({ should_exit := false, deck := [⟨"a", "b", 0, 0⟩, ⟨"c", "d", 0, 0⟩],
          order := Order.Sequential, show_side := Side.Front,
          index := 1 } : FlipApp).step (KeyCode.char 'n')).1).index = 1 ∧
    ((({ should_exit := false, deck := [⟨"a", "b", 0, 0⟩, ⟨"c", "d", 0, 0⟩],
          order := Order.Sequential, show_side := Side.Front,
          index := 0 } : FlipApp).step (KeyCode.char 'b')).1).index = 0 := by
  constructor
  · exact (navigation_clamped
      { should_exit := false, deck := [⟨"a", "b", 0, 0⟩, ⟨"c", "d", 0, 0⟩],
        order := Order.Sequential, show_side := Side.Front, index := 1 }
      (by simp) (by simp [USIZE])).1 rfl
  · exact (navigation_clamped
      { should_exit := false, deck := [⟨"a", "b", 0, 0⟩, ⟨"c", "d", 0, 0⟩],
        order := Order.Sequential, show_side := Side.Front, index := 0 }
      (by simp) (by simp [USIZE])).2.1 rfl

/-- The deck-cursor invariant of a review session: `0 ≤ index < len(cards)`. -/
def FlipApp.indexInv (a : FlipApp) : Prop :=
  0 ≤ a.index ∧ a.index < a.deck.length

/-- C5: the cursor invariant `0 ≤ index < len(cards)` holds at session start
over a non-empty deck and is preserved (together with the deck itself) by
every key-driven transition — flip, next, previous, quit, or an unrecognized
key. -/
theorem index_invariant (s : DeckState) (order : Order) (a : FlipApp)
    (k : KeyCode) :
    (s.cards ≠ [] → (FlipApp.new s order).indexInv) ∧
    (a.deck.length < USIZE → a.indexInv →
      ((a.step k).1).indexInv ∧ ((a.step k).1).deck = a.deck) := by
  constructor
  · intro h
    exact ⟨Nat.zero_le _, by simpa [FlipApp.new] using List.length_pos.mpr h⟩
  · intro hlen hinv
    obtain ⟨-, h2⟩ := hinv
    have h1 : 1 ≤ a.deck.length := by omega
    have hs : usizeSub1 a.deck.length = a.deck.length - 1 :=
      usizeSub1_of_pos _ h1 (le_of_lt hlen)
    cases k with
    | other => exact ⟨⟨Nat.zero_le _, h2⟩, rfl⟩
    | char c =>
      simp only [FlipApp.step, FlipApp.flip_card, FlipApp.indexInv, hs]
      split_ifs <;> simp_all <;> omega

/-- Witness for C5 at a concrete one-card session: the invariant holds at
start and after a `n` key press. -/
theorem index_invariant_witness :
    (FlipApp.new ⟨[⟨"a", "b", 0, 0⟩]⟩ Order.Sequential).indexInv ∧
    (((FlipApp.new ⟨[⟨"a", "b", 0, 0⟩]⟩ Order.Sequential).step
        (KeyCode.char 'n')).1).indexInv := by
  have h := index_invariant ⟨[⟨"a", "b", 0, 0⟩]⟩ Order.Sequential
    (FlipApp.new ⟨[⟨"a", "b", 0, 0⟩]⟩ Order.Sequential) (KeyCode.char 'n')
  have hstart := h.1 (by simp)
  refine ⟨hstart, (h.2 ?_ hstart).1⟩
  simp [FlipApp.new, USIZE]

/-- C8 as stated is false on this code: counterexample at a concrete session
state and the unrecognized key `x` — the state is indeed unchanged and the
loop continues, but the loop body prints nothing at all, in particular no
"command does not exist" message is reported. -/
theorem unrecognized_key_counterexample :
    ((FlipApp.new ⟨[⟨"a", "b", 0, 0⟩]⟩ Order.Sequential).step
        (KeyCode.char 'x')).1 =
      FlipApp.new ⟨[⟨"a", "b", 0, 0⟩]⟩ Order.Sequential ∧
    ¬ ("command does not exist" ∈
        ((FlipApp.new ⟨[⟨"a", "b", 0, 0⟩]⟩ Order.Sequential).step
          (KeyCode.char 'x')).2) ∧
    ((FlipApp.new ⟨[⟨"a", "b", 0, 0⟩]⟩ Order.Sequential).step
        (KeyCode.char 'x')).2 = [] := by
  refine ⟨rfl, ?_, rfl⟩
  intro h
  simp [FlipApp.step] at h

/-- C8 amended: an unrecognized key (any character other than `q`, `f`, `n`,
`b`, or any non-character key) leaves the entire session state unchanged and
prints nothing; in particular `should_exit` is untouched, so the loop
continues awaiting the next key. -/
theorem unrecognized_key_no_change (a : FlipApp) (k : KeyCode)
    (h : ∀ c, k = KeyCode.char c → c ≠ 'q' ∧ c ≠ 'f' ∧ c ≠ 'n' ∧ c ≠ 'b') :
    a.step k = (a, []) := by
  cases k with
  | other => rfl
  | char c =>
    obtain ⟨h1, h2, h3, h4⟩ := h c rfl
    simp [FlipApp.step, h1, h2, h3, h4]

/-- Witness for amended C8 at the unrecognized key `x` and a non-character
key on a concrete session state. -/
theorem unrecognized_key_no_change_witness :
    (FlipApp.new ⟨[⟨"a", "b", 0, 0⟩]⟩ Order.Sequential).step
        (KeyCode.char 'x') =
      (FlipApp.new ⟨[⟨"a", "b", 0, 0⟩]⟩ Order.Sequential, []) ∧
    (FlipApp.new ⟨[⟨"a", "b", 0, 0⟩]⟩ Order.Sequential).step KeyCode.other =
      (FlipApp.new ⟨[⟨"a", "b", 0, 0⟩]⟩ Order.Sequential, []) := by
  constructor
  · exact unrecognized_key_no_change _ _
      (fun c hc => by cases hc; exact ⟨by decide, by decide, by decide, by decide⟩)
  · exact unrecognized_key_no_change _ _ (fun c hc => by cases hc)

/-- C10: a `n` or `b` key press that actually changes the index also toggles
the visible side (the newly shown card appears on the toggled side, not reset
to Front), while a press clamped at a boundary leaves the visible side
unchanged. -/
theorem navigation_toggles_side (a : FlipApp) :
    (((a.step (KeyCode.char 'n')).1.index ≠ a.index →
        (a.step (KeyCode.char 'n')).1.show_side = a.show_side.toggle) ∧
      ((a.step (KeyCode.char 'n')).1.index = a.index →
        (a.step (KeyCode.char 'n')).1.show_side = a.show_side)) ∧
    (((a.step (KeyCode.char 'b')).1.index ≠ a.index →
        (a.step (KeyCode.char 'b')).1.show_side = a.show_side.toggle) ∧
      ((a.step (KeyCode.char 'b')).1.index = a.index →
        (a.step (KeyCode.char 'b')).1.show_side = a.show_side)) := by
  rw [FlipApp.step_n, FlipApp.step_b]
  constructor
  · split_ifs with h
    · exact ⟨fun _ => rfl, fun hh => by simp [FlipApp.flip_card] at hh⟩
    · exact ⟨fun hh => absurd rfl hh, fun _ => rfl⟩
  · split_ifs with h
    · exact ⟨fun _ => rfl, fun hh => by simp [FlipApp.flip_card] at hh; omega⟩
    · exact ⟨fun hh => absurd rfl hh, fun _ => rfl⟩

/-- Witness for C10: on a concrete two-card session at index 0 showing the
front, `n` moves to index 1 and the visible side becomes Back — the toggle
of Front. -/
theorem navigation_toggles_side_witness :
    ((({ should_exit := false, deck := [⟨"a", "b", 0, 0⟩, ⟨"c", "d", 0, 0⟩],
          order := Order.Sequential, show_side := Side.Front,
          index := 0 } : FlipApp).step (KeyCode.char 'n')).1).show_side =
      Side.Back :=
  (navigation_toggles_side
    { should_exit := false, deck := [⟨"a", "b", 0, 0⟩, ⟨"c", "d", 0, 0⟩],
      order := Order.Sequential, show_side := Side.Front,
      index := 0 }).1.1 (by decide)

/-- C1 as stated is false on this code at a deck with two equal cards:
removing external index 1 from `[dup, dup]` yields a deck of size 1, yet the
removed card (the one that was at internal index 0) is still a member of the
resulting list, so "the removed card is excluded from the list" fails. -/
theorem remove_excluded_counterexample :
    (mainStep "cards.toml" ⟨[⟨"dup", "dup", 0, 0⟩, ⟨"dup", "dup", 0, 0⟩]⟩
        (Action.remove 1) []).saved.cards = [⟨"dup", "dup", 0, 0⟩] ∧
    (⟨"dup", "dup", 0, 0⟩ : Flashcard) ∈
      (mainStep "cards.toml" ⟨[⟨"dup", "dup", 0, 0⟩, ⟨"dup", "dup", 0, 0⟩]⟩
        (Action.remove 1) []).saved.cards := by
  have h1 : usizeSub1 1 = 0 := usizeSub1_of_pos 1 le_rfl (by simp [USIZE])
  have h : (mainStep "cards.toml" ⟨[⟨"dup", "dup", 0, 0⟩, ⟨"dup", "dup", 0, 0⟩]⟩
      (Action.remove 1) []).saved.cards = [⟨"dup", "dup", 0, 0⟩] := by
    simp [mainStep, DeckState.remove_card, h1]
  exact ⟨h, by rw [h]; exact List.mem_singleton.mpr rfl⟩

/-- C1 amended: external index `i` with `1 ≤ i ≤ N` removes exactly the
occurrence at internal index `i - 1` (the saved deck is the loaded list with
that position deleted, of size N − 1 — the removed card's value can remain if
it occurs at other positions); any other `i`, including external index 0
(whose internal `i - 1` wraps to `2^64 − 1` under release-mode `usize`
arithmetic), leaves the deck's size and contents unchanged and reports
"Index out of bounds". -/
theorem remove_command (file : String) (state : DeckState) (i : Nat)
    (inputs : List KeyCode) (hN : state.cards.length < USIZE)
    (hi : i < USIZE) :
    (1 ≤ i ∧ i - 1 < state.cards.length →
      (mainStep file state (Action.remove i) inputs).saved.cards =
        state.cards.eraseIdx (i - 1) ∧
      (mainStep file state (Action.remove i) inputs).saved.cards.length =
        state.cards.length - 1) ∧
    (¬ (1 ≤ i ∧ i - 1 < state.cards.length) →
      (mainStep file state (Action.remove i) inputs).saved = state ∧
      (mainStep file state (Action.remove i) inputs).messages =
        ["Index out of bounds"]) := by
  constructor
  · intro h
    have hs : usizeSub1 i = i - 1 := usizeSub1_of_pos i h.1 (le_of_lt hi)
    have hr : state.remove_card (usizeSub1 i) =
        Except.ok (⟨state.cards.eraseIdx (i - 1)⟩,
          state.cards.get ⟨i - 1, h.2⟩) := by
      rw [hs]
      unfold DeckState.remove_card
      rw [dif_pos h.2]
    refine ⟨by simp [mainStep, hr], ?_⟩
    have hlen : (state.cards.eraseIdx (i - 1)).length =
        state.cards.length - 1 := by
      rw [List.length_eraseIdx]
      simp [h.2]
    simp [mainStep, hr, hlen]
  · intro h
    have hp : 0 < USIZE := by simp [USIZE]
    have hge : ¬ (usizeSub1 i < state.cards.length) := by
      rcases Nat.eq_zero_or_pos i with h0 | h1

      · subst h0
        rw [usizeSub1_zero]
        omega
      · rw [usizeSub1_of_pos i h1 (le_of_lt hi)]
        omega
    have hr : state.remove_card (usizeSub1 i) =
        Except.error "Index out of bounds" := by
      unfold DeckState.remove_card
      rw [dif_neg hge]
    constructor
    · simp [mainStep, hr]
    · simp [mainStep, hr]

/-- Witness for amended C1: removing external index 1 from a concrete
two-card deck keeps the second card only, and removing external index 0 (and
index 3) leaves the deck unchanged with the error reported. -/
theorem remove_command_witness :
    (mainStep "cards.toml" ⟨[⟨"x", "y", 1, 2⟩, ⟨"u", "v", 3, 4⟩]⟩
        (Action.remove 1) []).saved.cards = [⟨"u", "v", 3, 4⟩] ∧
    (mainStep "cards.toml" ⟨[⟨"x", "y", 1, 2⟩, ⟨"u", "v", 3, 4⟩]⟩
        (Action.remove 0) []).saved =
      ⟨[⟨"x", "y", 1, 2⟩, ⟨"u", "v", 3, 4⟩]⟩ ∧
    (mainStep "cards.toml" ⟨[⟨"x", "y", 1, 2⟩, ⟨"u", "v", 3, 4⟩]⟩
        (Action.remove 0) []).messages = ["Index out of bounds"] := by
  have hin := (remove_command "cards.toml"
    ⟨[⟨"x", "y", 1, 2⟩, ⟨"u", "v", 3, 4⟩]⟩ 1 []
    (by simp [USIZE]) (by simp [USIZE])).1 ⟨le_rfl, by simp⟩
  have hout := (remove_command "cards.toml"
    ⟨[⟨"x", "y", 1, 2⟩, ⟨"u", "v", 3, 4⟩]⟩ 0 []
    (by simp [USIZE]) (by simp [USIZE])).2 (by simp)
  exact ⟨hin.1, hout.1, hout.2⟩

/-- C9: no command mutates any card's counters.  Every card in the deck that
`main` saves after an `add`, `remove`, `list` or `flip` command is either a
card of the loaded deck, unchanged counters included, or a freshly added
card whose counters are 0 — the flip session works on a clone and never
writes statistics back. -/
theorem counters_never_mutated (file : String) (state : DeckState)
    (action : Action) (inputs : List KeyCode) (c : Flashcard)
    (hc : c ∈ (mainStep file state action inputs).saved.cards) :
    c ∈ state.cards ∨ (c.correct = 0 ∧ c.incorrect = 0) := by
  cases action with
  | add front back =>
    simp only [mainStep, DeckState.add_card] at hc
    rcases List.mem_append.mp hc with h | h
    · exact Or.inl h
    · rw [List.mem_singleton.mp h]
      exact Or.inr ⟨rfl, rfl⟩
  | remove i =>
    simp only [mainStep] at hc
    cases hr : state.remove_card (usizeSub1 i) with
    | ok p =>
      obtain ⟨s2, card⟩ := p
      rw [hr] at hc
      simp only at hc
      have hcards : s2.cards = state.cards.eraseIdx (usizeSub1 i) := by
        unfold DeckState.remove_card at hr
        split at hr
        · cases hr
          rfl
        · cases hr
      rw [hcards] at hc
      exact Or.inl ((List.eraseIdx_sublist state.cards (usizeSub1 i)).mem hc)
    | error e =>
      rw [hr] at hc
      exact Or.inl hc
  | list => exact Or.inl (by simpa [mainStep] using hc)
  | flip order =>
    simp only [mainStep] at hc
    split at hc
    · exact Or.inl hc
    · exact Or.inl hc

/-- Witness for C9: adding a card to a concrete one-card deck — the new card
is in the saved deck and satisfies the conclusion. -/
theorem counters_never_mutated_witness :
    (⟨"q", "a", 0, 0⟩ : Flashcard) ∈
      (mainStep "cards.toml" ⟨[⟨"x", "y", 1, 2⟩]⟩ (Action.add "q" "a")
        []).saved.cards ∧
    ((⟨"q", "a", 0, 0⟩ : Flashcard) ∈ (⟨[⟨"x", "y", 1, 2⟩]⟩ : DeckState).cards ∨
      ((⟨"q", "a", 0, 0⟩ : Flashcard).correct = 0 ∧
        (⟨"q", "a", 0, 0⟩ : Flashcard).incorrect = 0)) := by
  have hmem : (⟨"q", "a", 0, 0⟩ : Flashcard) ∈
      (mainStep "cards.toml" ⟨[⟨"x", "y", 1, 2⟩]⟩ (Action.add "q" "a")
        []).saved.cards := by
    simp [mainStep, DeckState.add_card, Flashcard.mkNew]
  exact ⟨hmem, counters_never_mutated "cards.toml" ⟨[⟨"x", "y", 1, 2⟩]⟩
    (Action.add "q" "a") [] ⟨"q", "a", 0, 0⟩ hmem⟩

end Flashcards
